import Mathlib

/-!
Verification of the blog CRUD application (`blog/utils.py`, `blog/views.py`).

The entity store, the model forms and the login mixin live outside the two
source files, so they are modelled from the specification (each such
definition carries a doc comment saying so).  Everything else is a direct
shallow embedding of the Python code: the store is a list of entities, each
request handler is a function from the store (and the request data) to the
new store paired with the response.
-/

namespace Blog

/-- An entity row (Post or Tag).  A Tag uses `title` as its name and leaves
`body` empty.  `id` is the primary key assigned by the store. -/
structure Entity where
  id : Nat
  slug : String
  title : String
  body : String
  deriving DecidableEq, Repr

/-- The raw field values of a submitted form. -/
structure FormData where
  title : String
  body : String
  slug : String
  deriving DecidableEq, Repr

/-- The outcomes a handler can produce, as distinguishable responses:
a rendered detail page, a re-rendered form with its errors, a redirect to a
detail page or to a list page, an HTTP 404, an uncaught exception
(server error), or an HTTP 403. -/
inductive Response where
  | renderDetail (e : Entity)
  | renderForm (fd : FormData) (errors : List String)
  | redirectTo (slug : String)
  | redirectList (url : String)
  | notFound
  | serverError (msg : String)
  | forbidden
  deriving DecidableEq, Repr

/-- The character data of a string, lowercased character by character (the
case folding applied by the ORM's case-insensitive lookups). -/
def lowerChars (s : String) : List Char :=
  s.data.map Char.toLower

/-- Case-insensitive string equality, embedding the ORM's `slug__iexact`
lookup. -/
def iexact (a b : String) : Bool :=
  lowerChars a == lowerChars b

/-- All stored entities whose slug matches the given slug case-insensitively
(the result set of the `slug__iexact` query). -/
def slugMatches (store : List Entity) (slug : String) : List Entity :=
  store.filter (fun e => iexact e.slug slug)

/-- Result of `get_object_or_404`: the unique match, an HTTP 404 when there is
none, or a propagated `MultipleObjectsReturned` when there are several. -/
inductive Fetched where
  | found (e : Entity)
  | http404
  | multiple
  deriving DecidableEq, Repr

/-- Embeds `get_object_or_404(self.model, slug__iexact=slug)`: it converts the
manager's `DoesNotExist` into an HTTP 404 and lets `MultipleObjectsReturned`
propagate. -/
def get_object_or_404 (store : List Entity) (slug : String) : Fetched :=
  match slugMatches store slug with
  | [] => .http404
  | [e] => .found e
  | _ :: _ :: _ => .multiple

/-- Result of the bare manager lookup `Model.objects.get(slug__iexact=slug)`:
the unique match, or the `DoesNotExist` / `MultipleObjectsReturned`
exceptions. -/
inductive ObjGot where
  | found (e : Entity)
  | doesNotExist
  | multiple
  deriving DecidableEq, Repr

/-- Embeds `self.model.objects.get(slug__iexact=slug)`. -/
def objects_get (store : List Entity) (slug : String) : ObjGot :=
  match slugMatches store slug with
  | [] => .doesNotExist
  | [e] => .found e
  | _ :: _ :: _ => .multiple

/-- Modelled from the spec: the form validators (`PostForm` / `TagForm` in
`blog/forms.py`, which is not under `src/`) check that the required fields are
non-empty and that the slug is unique for the entity kind
(case-insensitively). -/
def formErrors (store : List Entity) (fd : FormData) : List String :=
  (if fd.title = "" then ["title: required"] else []) ++
  (if fd.slug = "" then ["slug: required"] else []) ++
  (if store.any (fun e => iexact e.slug fd.slug) then ["slug: duplicate"] else [])

/-- Modelled from the spec: validation of a form bound to an existing instance
(`self.model_form(request.POST, instance=obj)` in `blog/forms.py` /
the framework, not under `src/`) — the slug uniqueness check ignores the
instance being edited. -/
def formErrorsUpdate (store : List Entity) (inst : Entity) (fd : FormData) : List String :=
  (if fd.title = "" then ["title: required"] else []) ++
  (if fd.slug = "" then ["slug: required"] else []) ++
  (if store.any (fun e => e.id != inst.id && iexact e.slug fd.slug) then
    ["slug: duplicate"] else [])

/-- The next primary key the store hands out: one past the largest id in use. -/
def freshId (store : List Entity) : Nat :=
  (store.map Entity.id).foldr (fun a b => max a b) 0 + 1

/-- Modelled from the spec: `bound_form.save()` on an unbound-instance form
persists one new entity carrying the validated fields; the store assigns a
fresh primary key (`blog/models.py` is not under `src/`). -/
def formSave (store : List Entity) (fd : FormData) : Entity × List Entity :=
  let e : Entity := { id := freshId store, slug := fd.slug, title := fd.title, body := fd.body }
  (e, store ++ [e])

/-- Modelled from the spec: `bound_form.save()` on a form bound to `inst`
overwrites that entity's fields in place, preserving its identity (the row
keeps its primary key). -/
def updateSave (store : List Entity) (inst : Entity) (fd : FormData) : Entity × List Entity :=
  let e : Entity := { id := inst.id, slug := fd.slug, title := fd.title, body := fd.body }
  (e, store.map (fun x => if x.id = inst.id then e else x))

/-- Embeds `ObjectDetailMixin.get`: look the object up with
`get_object_or_404` and render its detail page. -/
def ObjectDetailMixin.get (store : List Entity) (slug : String) : Response :=
  match get_object_or_404 store slug with
  | .found e => .renderDetail e
  | .http404 => .notFound
  | .multiple => .serverError "MultipleObjectsReturned"

/-- Embeds `ObjectCreateMixin.post`: bind the form to the posted data; if it
validates, save and redirect to the new object, otherwise re-render the bound
form (which still carries the submitted values) with its errors. -/
def ObjectCreateMixin.post (store : List Entity) (fd : FormData) :
    List Entity × Response :=
  if (formErrors store fd).isEmpty then
    ((formSave store fd).2, .redirectTo (formSave store fd).1.slug)
  else
    (store, .renderForm fd (formErrors store fd))

/-- Embeds `ObjectUpdateMixin.post`: fetch the object with the bare
`objects.get` (its exceptions propagate), bind the form to the posted data and
the instance; if it validates, save in place and redirect to the object,
otherwise re-render the bound form with its errors. -/
def ObjectUpdateMixin.post (store : List Entity) (slug : String) (fd : FormData) :
    List Entity × Response :=
  match objects_get store slug with
  | .found obj =>
    if (formErrorsUpdate store obj fd).isEmpty then
      ((updateSave store obj fd).2, .redirectTo (updateSave store obj fd).1.slug)
    else
      (store, .renderForm fd (formErrorsUpdate store obj fd))
  | .doesNotExist => (store, .serverError "DoesNotExist")
  | .multiple => (store, .serverError "MultipleObjectsReturned")

/-- Embeds `ObjectDeleteMixin.post`: fetch the object with the bare
`objects.get` (its exceptions propagate), delete it, and redirect to the list
page named by `redirect_url`. -/
def ObjectDeleteMixin.post (store : List Entity) (slug : String)
    (redirect_url : String) : List Entity × Response :=
  match objects_get store slug with
  | .found obj => (store.filter (fun x => x.id != obj.id), .redirectList redirect_url)
  | .doesNotExist => (store, .serverError "DoesNotExist")
  | .multiple => (store, .serverError "MultipleObjectsReturned")

/-- Modelled from the spec: the access gate (`LoginRequiredMixin` with
`raise_exception = True`, provided by the framework and not under `src/`)
rejects any caller lacking an authenticated session with a Forbidden outcome
before the wrapped operation's logic runs. -/
def loginRequired (authenticated : Bool)
    (op : List Entity → List Entity × Response) (store : List Entity) :
    List Entity × Response :=
  if authenticated then op store else (store, .forbidden)

/-- Embeds `PostCreate.post` (`LoginRequiredMixin` + `ObjectCreateMixin`). -/
def PostCreate.post (authenticated : Bool) (store : List Entity) (fd : FormData) :
    List Entity × Response :=
  loginRequired authenticated (fun s => ObjectCreateMixin.post s fd) store

/-- Embeds `PostUpdate.post` (`LoginRequiredMixin` + `ObjectUpdateMixin`). -/
def PostUpdate.post (authenticated : Bool) (store : List Entity) (slug : String)
    (fd : FormData) : List Entity × Response :=
  loginRequired authenticated (fun s => ObjectUpdateMixin.post s slug fd) store

/-- Embeds `PostDelete.post` (`LoginRequiredMixin` + `ObjectDeleteMixin` with
`redirect_url = 'posts_list_url'`). -/
def PostDelete.post (authenticated : Bool) (store : List Entity) (slug : String) :
    List Entity × Response :=
  loginRequired authenticated (fun s => ObjectDeleteMixin.post s slug "posts_list_url") store

/-- Does `hay` start with `needle`?  (Character-list version of a prefix
test, used to build the substring test below.) -/
def startsWithChars : List Char → List Char → Bool
  | _, [] => true
  | [], _ :: _ => false
  | c :: cs, d :: ds => c == d && startsWithChars cs ds

/-- Does `hay` contain `needle` as a contiguous substring? -/
def containsChars (needle : List Char) : List Char → Bool
  | [] => needle.isEmpty
  | c :: cs => startsWithChars (c :: cs) needle || containsChars needle cs

/-- Embeds the ORM's `icontains` lookup: case-insensitive substring
containment. -/
def icontains (hay needle : String) : Bool :=
  containsChars (lowerChars needle) (lowerChars hay)

/-- Embeds the queryset built by `posts_list`: with a non-empty search term it
is `Post.objects.filter(Q(title__icontains=...) | Q(body__icontains=...))`,
otherwise (term absent, i.e. `request.GET.get('search', '')` defaulting, or the
empty string, which is falsy) it is `Post.objects.all()`. -/
def postsQuery (store : List Entity) (search : Option String) : List Entity :=
  let search_query := search.getD ""
  if search_query = "" then store
  else store.filter (fun p => icontains p.title search_query || icontains p.body search_query)

/-- Embeds `Paginator.num_pages` with `orphans = 0` and
`allow_empty_first_page = True`: `ceil(max(1, count) / per_page)`. -/
def num_pages (count perPage : Nat) : Nat :=
  (max 1 count + perPage - 1) / perPage

/-- The raw `page` query parameter: absent (so `request.GET.get('page', 1)`
yields the integer 1) or a string. -/
inductive PageParam where
  | missing
  | str (s : String)
  deriving DecidableEq, Repr

/-- The numeric value of a decimal digit character, `none` otherwise. -/
def digitVal (c : Char) : Option Nat :=
  if c.isDigit then some (c.toNat - 48) else none

/-- Accumulate a run of decimal digits; fails on the first non-digit. -/
def digitsAux : List Char → Nat → Option Nat
  | [], acc => some acc
  | c :: cs, acc =>
    match digitVal c with
    | some d => digitsAux cs (acc * 10 + d)
    | none => none

/-- A non-empty all-digit character list as a number, `none` otherwise. -/
def digitsToNat : List Char → Option Nat
  | [] => none
  | c :: cs => digitsAux (c :: cs) 0

/-- Embeds Python's `int()` conversion as applied by
`Paginator.validate_number`: an optional sign followed by at least one decimal
digit; anything else raises `ValueError`, i.e. `PageNotAnInteger`. -/
def parseInt (s : String) : Option Int :=
  match s.data with
  | '-' :: rest => (digitsToNat rest).map (fun n => -(n : Int))
  | '+' :: rest => (digitsToNat rest).map (fun n => (n : Int))
  | l => (digitsToNat l).map (fun n => (n : Int))

/-- Embeds `Paginator.get_page`: a value that does not parse as an integer
(`PageNotAnInteger`) yields page 1; an integer below 1 or above `num_pages`
(`EmptyPage`) yields the last page; otherwise the requested page. -/
def get_page (count perPage : Nat) (param : PageParam) : Nat :=
  match param with
  | .missing => 1
  | .str s =>
    match parseInt s with
    | none => 1
    | some n =>
      if n < 1 then num_pages count perPage
      else if (num_pages count perPage : Int) < n then num_pages count perPage
      else n.toNat

/-- The object list of page `k` (1-based) of `posts` at the given page size. -/
def pageObjects (posts : List Entity) (perPage k : Nat) : List Entity :=
  (posts.drop ((k - 1) * perPage)).take perPage

/-- Embeds `page.has_previous()`. -/
def has_previous (k : Nat) : Bool := 1 < k

/-- Embeds `page.has_next()`. -/
def has_next (count perPage k : Nat) : Bool := k < num_pages count perPage

/-- The template context assembled by `posts_list`. -/
structure ListContext where
  objects : List Entity
  pageNumber : Nat
  is_paginated : Bool
  next_url : String
  prev_url : String
  deriving DecidableEq, Repr

/-- Embeds the `posts_list` view: build the (optionally filtered) queryset,
paginate it at page size 10, and assemble the context with the
previous/next-page links. -/
def posts_list (store : List Entity) (search : Option String)
    (pageParam : PageParam) : ListContext :=
  let posts := postsQuery store search
  let k := get_page posts.length 10 pageParam
  { objects := pageObjects posts 10 k
    pageNumber := k
    is_paginated := has_previous k || has_next posts.length 10 k
    next_url := if has_next posts.length 10 k then "?page=" ++ toString (k + 1) else ""
    prev_url := if has_previous k then "?page=" ++ toString (k - 1) else "" }

/-! Helper lemmas about the slug lookup. -/

theorem mem_of_slugMatches_single {store : List Entity} {slug : String}
    {e : Entity} (h : slugMatches store slug = [e]) : e ∈ store := by
  have he : e ∈ slugMatches store slug := by
    rw [h]; exact List.mem_singleton_self e
  exact List.mem_of_mem_filter he

theorem objects_get_found_eq {store : List Entity} {slug : String} {obj : Entity} :
    objects_get store slug = .found obj → slugMatches store slug = [obj] := by
  unfold objects_get
  cases hsm : slugMatches store slug with
  | nil => intro h; exact absurd h (by simp)
  | cons a t =>
    cases t with
    | nil =>
      intro h
      simp only [ObjGot.found.injEq] at h
      rw [h]
    | cons b t2 => intro h; exact absurd h (by simp)

/-- A concrete stored entity used by the witnesses below. -/
def wPost : Entity := ⟨1, "hello-world", "Hello", "Body"⟩

/-- Claim C1: for every stored entity kind (the store is a list of either
kind's rows) and every slug matching exactly one stored entity under
case-insensitive comparison, the detail operation returns exactly that
entity; for every slug with no matching entity it yields NotFound. -/
theorem detail_lookup_correct (store : List Entity) (slug : String) :
    (∀ e : Entity, slugMatches store slug = [e] →
        ObjectDetailMixin.get store slug = Response.renderDetail e) ∧
    (slugMatches store slug = [] →
        ObjectDetailMixin.get store slug = Response.notFound) := by
  constructor
  · intro e he
    unfold ObjectDetailMixin.get get_object_or_404
    rw [he]
  · intro h
    unfold ObjectDetailMixin.get get_object_or_404
    rw [h]

/-- Witness: the detail lookup on a one-entity store, with a slug differing
only in case, and on an absent slug. -/
theorem detail_lookup_correct_witness :
    ObjectDetailMixin.get [wPost] "Hello-World" = Response.renderDetail wPost ∧
    ObjectDetailMixin.get [wPost] "absent" = Response.notFound :=
  ⟨(detail_lookup_correct [wPost] "Hello-World").1 wPost (by decide),
   (detail_lookup_correct [wPost] "absent").2 (by decide)⟩

/-- Claim C2 counterexample: with an empty store — so slug "x" matches no
entity — the update and the delete operation do not produce the NotFound
response; they surface the uncaught DoesNotExist exception as a server
error. -/
theorem update_delete_missing_counterexample :
    (ObjectUpdateMixin.post [] "x" ⟨"t", "b", "s"⟩).2 ≠ Response.notFound ∧
    (ObjectDeleteMixin.post [] "x" "posts_list_url").2 ≠ Response.notFound ∧
    (ObjectUpdateMixin.post [] "x" ⟨"t", "b", "s"⟩).2 = Response.serverError "DoesNotExist" ∧
    (ObjectDeleteMixin.post [] "x" "posts_list_url").2 = Response.serverError "DoesNotExist" := by
  decide

/-- Claim C2 (amended): for every slug with no matching stored entity, the
update operation and the delete operation leave the store unchanged and fail
with the uncaught DoesNotExist exception — surfaced as a server error, not as
a NotFound response. -/
theorem update_delete_missing_is_error (store : List Entity) (slug : String)
    (fd : FormData) (url : String) (h : slugMatches store slug = []) :
    ObjectUpdateMixin.post store slug fd = (store, Response.serverError "DoesNotExist") ∧
    ObjectDeleteMixin.post store slug url = (store, Response.serverError "DoesNotExist") := by
  unfold ObjectUpdateMixin.post ObjectDeleteMixin.post objects_get
  rw [h]
  exact ⟨rfl, rfl⟩

/-- Witness: update and delete on a one-entity store with an absent slug. -/
theorem update_delete_missing_is_error_witness :
    ObjectUpdateMixin.post [wPost] "absent" ⟨"t", "b", "s"⟩ =
      ([wPost], Response.serverError "DoesNotExist") ∧
    ObjectDeleteMixin.post [wPost] "absent" "posts_list_url" =
      ([wPost], Response.serverError "DoesNotExist") :=
  update_delete_missing_is_error [wPost] "absent" ⟨"t", "b", "s"⟩ "posts_list_url" (by decide)

/-- Claim C8: every create, update or delete request from an unauthenticated
caller is rejected with the Forbidden outcome before the wrapped operation's
logic runs — for an arbitrary wrapped operation the store is returned
untouched — and in particular `PostCreate`, `PostUpdate` and `PostDelete`
reject without mutating the store. -/
theorem access_gate_rejects (authenticated : Bool) (store : List Entity)
    (slug : String) (fd : FormData) (h : authenticated = false) :
    (∀ op : List Entity → List Entity × Response,
        loginRequired authenticated op store = (store, Response.forbidden)) ∧
    PostCreate.post authenticated store fd = (store, Response.forbidden) ∧
    PostUpdate.post authenticated store slug fd = (store, Response.forbidden) ∧
    PostDelete.post authenticated store slug = (store, Response.forbidden) := by
  subst h
  exact ⟨fun op => rfl, rfl, rfl, rfl⟩

/-- Witness: an unauthenticated create attempt on a one-entity store. -/
theorem access_gate_rejects_witness :
    PostCreate.post false [wPost] ⟨"t", "b", "s"⟩ = ([wPost], Response.forbidden) ∧
    PostDelete.post false [wPost] "hello-world" = ([wPost], Response.forbidden) :=
  ⟨(access_gate_rejects false [wPost] "hello-world" ⟨"t", "b", "s"⟩ rfl).2.1,
   (access_gate_rejects false [wPost] "hello-world" ⟨"t", "b", "s"⟩ rfl).2.2.2⟩

/-- Claim C3: a create submission with valid fields persists exactly one new
entity — the store becomes the old store with the saved entity appended, so
the count grows by one — and redirects to that entity's detail page; a
submission with invalid fields leaves the store unchanged and re-renders the
form carrying the submitted values together with its non-empty error list. -/
theorem create_submission_correct (store : List Entity) (fd : FormData) :
    ((formErrors store fd).isEmpty = true →
        ObjectCreateMixin.post store fd =
          (store ++ [(formSave store fd).1],
            Response.redirectTo (formSave store fd).1.slug) ∧
        (ObjectCreateMixin.post store fd).1.length = store.length + 1) ∧
    ((formErrors store fd).isEmpty = false →
        ObjectCreateMixin.post store fd =
          (store, Response.renderForm fd (formErrors store fd)) ∧
        formErrors store fd ≠ []) := by
  constructor
  · intro h
    refine ⟨?_, ?_⟩ <;> simp [ObjectCreateMixin.post, h, formSave]
  · intro h
    refine ⟨?_, fun hnil => ?_⟩
    · simp [ObjectCreateMixin.post, h]
    · rw [hnil] at h
      simp at h

/-- Witness: a valid and an invalid create submission on a one-entity
store. -/
theorem create_submission_correct_witness :
    (ObjectCreateMixin.post [wPost] ⟨"T", "B", "fresh"⟩ =
        ([wPost] ++ [(formSave [wPost] ⟨"T", "B", "fresh"⟩).1],
          Response.redirectTo (formSave [wPost] ⟨"T", "B", "fresh"⟩).1.slug) ∧
      (ObjectCreateMixin.post [wPost] ⟨"T", "B", "fresh"⟩).1.length = [wPost].length + 1) ∧
    (ObjectCreateMixin.post [wPost] ⟨"", "B", "hello-world"⟩ =
        ([wPost], Response.renderForm ⟨"", "B", "hello-world"⟩
          (formErrors [wPost] ⟨"", "B", "hello-world"⟩)) ∧
      formErrors [wPost] ⟨"", "B", "hello-world"⟩ ≠ []) :=
  ⟨(create_submission_correct [wPost] ⟨"T", "B", "fresh"⟩).1 (by decide),
   (create_submission_correct [wPost] ⟨"", "B", "hello-world"⟩).2 (by decide)⟩

/-- Claim C4: a valid update submission on an existing entity overwrites it
in place — the saved entity keeps the instance's primary key, it replaces the
instance in the store, every entity with a different key is untouched, the
entity count is unchanged — and the caller is redirected to the entity's
detail page. -/
theorem update_submission_valid (store : List Entity) (slug : String)
    (fd : FormData) (obj : Entity)
    (hget : objects_get store slug = .found obj)
    (hval : (formErrorsUpdate store obj fd).isEmpty = true) :
    (ObjectUpdateMixin.post store slug fd).1.length = store.length ∧
    (updateSave store obj fd).1.id = obj.id ∧
    (ObjectUpdateMixin.post store slug fd).1 =
      store.map (fun x => if x.id = obj.id then (updateSave store obj fd).1 else x) ∧
    (updateSave store obj fd).1 ∈ (ObjectUpdateMixin.post store slug fd).1 ∧
    (∀ x ∈ store, x.id ≠ obj.id → x ∈ (ObjectUpdateMixin.post store slug fd).1) ∧
    (ObjectUpdateMixin.post store slug fd).2 =
      Response.redirectTo (updateSave store obj fd).1.slug := by
  have hmem : obj ∈ store := mem_of_slugMatches_single (objects_get_found_eq hget)
  have hpost : ObjectUpdateMixin.post store slug fd =
      ((updateSave store obj fd).2, Response.redirectTo (updateSave store obj fd).1.slug) := by
    simp only [ObjectUpdateMixin.post, hget, hval, if_true]
  have hmap : (updateSave store obj fd).2 =
      store.map (fun x => if x.id = obj.id then (updateSave store obj fd).1 else x) := rfl
  rw [hpost]
  refine ⟨by simp [hmap], rfl, hmap, ?_, ?_, rfl⟩
  · rw [hmap]
    exact List.mem_map.mpr ⟨obj, hmem, by simp⟩
  · intro x hx hne
    rw [hmap]
    exact List.mem_map.mpr ⟨x, hx, by simp [hne]⟩

/-- Witness: a valid update on a two-entity store, addressed by a slug
differing in case. -/
theorem update_submission_valid_witness :
    (ObjectUpdateMixin.post [wPost, ⟨2, "second", "S", "SB"⟩] "HELLO-WORLD"
        ⟨"T2", "B2", "hello-world"⟩).1.length = 2 ∧
    (ObjectUpdateMixin.post [wPost, ⟨2, "second", "S", "SB"⟩] "HELLO-WORLD"
        ⟨"T2", "B2", "hello-world"⟩).2 = Response.redirectTo "hello-world" := by
  have h := update_submission_valid [wPost, ⟨2, "second", "S", "SB"⟩] "HELLO-WORLD"
    ⟨"T2", "B2", "hello-world"⟩ wPost (by decide) (by decide)
  exact ⟨h.1, h.2.2.2.2.2⟩

/-! Helper lemmas for the delete operation. -/

theorem length_filter_ne_id (store : List Entity) (obj : Entity)
    (h : (store.map Entity.id).Nodup) (hm : obj ∈ store) :
    (store.filter (fun x => x.id != obj.id)).length + 1 = store.length := by
  induction store with
  | nil => cases hm
  | cons e t ih =>
    rw [List.map_cons, List.nodup_cons] at h
    obtain ⟨hid, ht⟩ := h
    rcases List.mem_cons.mp hm with rfl | hmt
    · have hfil : t.filter (fun x => x.id != obj.id) = t := by
        apply List.filter_eq_self.mpr
        intro a ha
        simp only [bne_iff_ne, ne_eq]
        intro heq
        exact hid (heq ▸ List.mem_map_of_mem Entity.id ha)
      rw [List.filter_cons, if_neg (by simp), hfil, List.length_cons]
    · have hpe : (e.id != obj.id) = true := by
        simp only [bne_iff_ne, ne_eq]
        intro hee
        exact hid (hee ▸ List.mem_map_of_mem Entity.id hmt)
      rw [List.filter_cons, if_pos hpe, List.length_cons,
        Nat.succ_add, ih ht hmt, List.length_cons]

/-- Claim C5: a confirmed delete submission on an existing entity — primary
keys being unique in the store — removes exactly that one entity: it is gone
from the store, every other entity is kept, the count drops by one, and the
caller is redirected to the entity kind's list page. -/
theorem delete_submission_correct (store : List Entity) (slug url : String)
    (obj : Entity)
    (hids : (store.map Entity.id).Nodup)
    (hget : objects_get store slug = .found obj) :
    (ObjectDeleteMixin.post store slug url).1.length + 1 = store.length ∧
    obj ∉ (ObjectDeleteMixin.post store slug url).1 ∧
    (∀ x ∈ store, x ≠ obj → x ∈ (ObjectDeleteMixin.post store slug url).1) ∧
    (ObjectDeleteMixin.post store slug url).2 = Response.redirectList url := by
  have hmem : obj ∈ store := mem_of_slugMatches_single (objects_get_found_eq hget)
  unfold ObjectDeleteMixin.post
  rw [hget]
  refine ⟨length_filter_ne_id store obj hids hmem, ?_, ?_, rfl⟩
  · intro hin
    have := (List.mem_filter.mp hin).2
    simp at this
  · intro x hx hne
    refine List.mem_filter.mpr ⟨hx, ?_⟩
    simp only [bne_iff_ne, ne_eq]
    intro hidEq
    exact hne (List.inj_on_of_nodup_map hids hx hmem hidEq)

/-- Witness: deleting one of two stored entities. -/
theorem delete_submission_correct_witness :
    (ObjectDeleteMixin.post [wPost, ⟨2, "second", "S", "SB"⟩] "second"
        "posts_list_url").1.length + 1 = 2 ∧
    wPost ∈ (ObjectDeleteMixin.post [wPost, ⟨2, "second", "S", "SB"⟩] "second"
        "posts_list_url").1 ∧
    (ObjectDeleteMixin.post [wPost, ⟨2, "second", "S", "SB"⟩] "second"
        "posts_list_url").2 = Response.redirectList "posts_list_url" := by
  have h := delete_submission_correct [wPost, ⟨2, "second", "S", "SB"⟩] "second"
    "posts_list_url" ⟨2, "second", "S", "SB"⟩ (by decide) (by decide)
  exact ⟨h.1, h.2.2.1 wPost (by decide) (by decide), h.2.2.2⟩

/-- Claim C9: when the search parameter is absent or the empty string, the
list queryset is all stored Posts unfiltered; the substring filter is applied
only when the term is a non-empty string. -/
theorem empty_search_returns_all (store : List Entity) :
    postsQuery store none = store ∧
    postsQuery store (some "") = store ∧
    (∀ q : String, q ≠ "" →
        postsQuery store (some q) =
          store.filter (fun p => icontains p.title q || icontains p.body q)) := by
  refine ⟨rfl, rfl, fun q hq => ?_⟩
  unfold postsQuery
  simp [hq]

/-- Witness: the list queryset on a one-entity store with the parameter
absent, empty, and a concrete non-empty term. -/
theorem empty_search_returns_all_witness :
    postsQuery [wPost] none = [wPost] ∧
    postsQuery [wPost] (some "") = [wPost] ∧
    postsQuery [wPost] (some "zzz") =
      [wPost].filter (fun p => icontains p.title "zzz" || icontains p.body "zzz") := by
  have h := empty_search_returns_all [wPost]
  exact ⟨h.1, h.2.1, h.2.2 "zzz" (by decide)⟩

/-! Characterization of the substring test used by the search filter. -/

theorem startsWithChars_iff (needle hay : List Char) :
    startsWithChars hay needle = true ↔ ∃ r, hay = needle ++ r := by
  induction needle generalizing hay with
  | nil =>
    simp only [startsWithChars, List.nil_append, true_iff]
    exact ⟨hay, rfl⟩
  | cons n ns ih =>
    cases hay with
    | nil =>
      simp [startsWithChars]
    | cons c cs =>
      simp only [startsWithChars, Bool.and_eq_true, beq_iff_eq, ih, List.cons_append,
        List.cons.injEq]
      constructor
      · rintro ⟨rfl, r, rfl⟩
        exact ⟨r, rfl, rfl⟩
      · rintro ⟨r, rfl, rfl⟩
        exact ⟨rfl, r, rfl⟩

theorem containsChars_iff (needle hay : List Char) :
    containsChars needle hay = true ↔ ∃ l r, hay = l ++ needle ++ r := by
  induction hay with
  | nil =>
    simp only [containsChars, List.isEmpty_iff]
    constructor
    · rintro rfl
      exact ⟨[], [], rfl⟩
    · rintro ⟨l, r, h⟩
      rcases l with _ | ⟨a, l⟩
      · rcases needle with _ | ⟨b, nd⟩
        · rfl
        · simp at h
      · simp at h
  | cons c cs ih =>
    simp only [containsChars, Bool.or_eq_true, startsWithChars_iff, ih]
    constructor
    · rintro (⟨r, hr⟩ | ⟨l, r, hr⟩)
      · exact ⟨[], r, by simpa using hr⟩
      · exact ⟨c :: l, r, by rw [hr]; rfl⟩
    · rintro ⟨l, r, h⟩
      rcases l with _ | ⟨a, l⟩
      · exact Or.inl ⟨r, by simpa using h⟩
      · rw [List.cons_append, List.cons_append, List.cons.injEq] at h
        exact Or.inr ⟨l, r, h.2⟩

/-- Claim C6: for every non-empty search term, the list queryset is exactly
the set of stored Posts whose title or body contains the term as a
case-insensitive substring — OR semantics across the two fields, stated as an
append decomposition of the lowercased character data; when no stored Post
contains the term in either field, the result is empty. -/
theorem search_returns_matching (store : List Entity) (q : String) (hq : q ≠ "") :
    (∀ p : Entity, p ∈ postsQuery store (some q) ↔
        p ∈ store ∧
          ((∃ l r, lowerChars p.title = l ++ lowerChars q ++ r) ∨
           (∃ l r, lowerChars p.body = l ++ lowerChars q ++ r))) ∧
    ((∀ p ∈ store, ¬(∃ l r, lowerChars p.title = l ++ lowerChars q ++ r) ∧
          ¬(∃ l r, lowerChars p.body = l ++ lowerChars q ++ r)) →
        postsQuery store (some q) = []) := by
  have hqdef : postsQuery store (some q) =
      store.filter (fun p => icontains p.title q || icontains p.body q) := by
    unfold postsQuery
    simp [hq]
  constructor
  · intro p
    rw [hqdef, List.mem_filter, Bool.or_eq_true]
    unfold icontains
    rw [containsChars_iff, containsChars_iff]
  · intro hnone
    rw [hqdef]
    apply List.filter_eq_nil_iff.mpr
    intro p hp
    have h := hnone p hp
    simp only [icontains, Bool.or_eq_true, containsChars_iff]
    rintro (hc | hc)
    · exact h.1 hc
    · exact h.2 hc

/-- Witness: searching a one-entity store for a term occurring (in different
case) in the body, and for an absent term. -/
theorem search_returns_matching_witness :
    (wPost ∈ postsQuery [wPost] (some "BOD") ↔
        wPost ∈ [wPost] ∧
          ((∃ l r, lowerChars wPost.title = l ++ lowerChars "BOD" ++ r) ∨
           (∃ l r, lowerChars wPost.body = l ++ lowerChars "BOD" ++ r))) ∧
    postsQuery [wPost] (some "zzz") = [] := by
  refine ⟨(search_returns_matching [wPost] "BOD" (by decide)).1 wPost,
    (search_returns_matching [wPost] "zzz" (by decide)).2 ?_⟩
  intro p hp
  have hp' : p = wPost := by simpa using hp
  subst hp'
  constructor
  · intro hc
    have : containsChars (lowerChars "zzz") (lowerChars wPost.title) = true :=
      (containsChars_iff _ _).mpr hc
    exact absurd this (by decide)
  · intro hc
    have : containsChars (lowerChars "zzz") (lowerChars wPost.body) = true :=
      (containsChars_iff _ _).mpr hc
    exact absurd this (by decide)

/-- Claim C7: listing is paginated at a fixed page size of 10 — with 25
stored Posts and no search term there are exactly 3 pages; requesting page 1
or page 2 produces a next-page link, page 3 does not, and page 1 produces no
previous-page link. -/
theorem pagination_of_25 (store : List Entity) (h : store.length = 25) :
    num_pages (postsQuery store none).length 10 = 3 ∧
    (posts_list store none (.str "1")).next_url = "?page=2" ∧
    (posts_list store none (.str "2")).next_url = "?page=3" ∧
    (posts_list store none (.str "3")).next_url = "" ∧
    (posts_list store none (.str "1")).prev_url = "" := by
  have hq : (postsQuery store none).length = 25 := h
  refine ⟨?_, ?_, ?_, ?_, ?_⟩ <;> simp only [posts_list, hq] <;> decide

/-- A concrete store of 25 Posts used by the pagination witness. -/
def wStore25 : List Entity :=
  (List.range 25).map (fun i => ⟨i, toString i, "t", "b"⟩)

/-- Witness: pagination over the concrete 25-Post store. -/
theorem pagination_of_25_witness :
    num_pages (postsQuery wStore25 none).length 10 = 3 ∧
    (posts_list wStore25 none (.str "1")).next_url = "?page=2" ∧
    (posts_list wStore25 none (.str "2")).next_url = "?page=3" ∧
    (posts_list wStore25 none (.str "3")).next_url = "" ∧
    (posts_list wStore25 none (.str "1")).prev_url = "" :=
  pagination_of_25 wStore25 (by decide)

/-- The paginator always has at least one page. -/
theorem one_le_num_pages (count : Nat) : 1 ≤ num_pages count 10 := by
  unfold num_pages
  rw [Nat.le_div_iff_mul_le (by norm_num)]
  have h1 : 1 ≤ max 1 count := le_max_left 1 count
  omega

/-- `get_page` on a parameter that parses to the integer `n`. -/
theorem get_page_parsed (count perPage : Nat) (s : String) (n : Int)
    (hs : parseInt s = some n) :
    get_page count perPage (.str s) =
      if n < 1 then num_pages count perPage
      else if (num_pages count perPage : Int) < n then num_pages count perPage
      else n.toNat := by
  simp only [get_page, hs]

/-- Claim C10: the list operation never fails on any page parameter — a
missing parameter or a value that does not parse as an integer yields page 1,
an integer beyond the last page yields the last page, and in every case the
selected page number lies between 1 and the number of pages. -/
theorem page_param_never_fails (store : List Entity) (search : Option String) :
    (posts_list store search .missing).pageNumber = 1 ∧
    (∀ s : String, parseInt s = none →
        (posts_list store search (.str s)).pageNumber = 1) ∧
    (∀ s : String, ∀ n : Int, parseInt s = some n →
        (num_pages (postsQuery store search).length 10 : Int) < n →
        (posts_list store search (.str s)).pageNumber =
          num_pages (postsQuery store search).length 10) ∧
    (∀ p : PageParam, 1 ≤ (posts_list store search p).pageNumber ∧
        (posts_list store search p).pageNumber ≤
          num_pages (postsQuery store search).length 10) := by
  have hpn : ∀ p : PageParam, (posts_list store search p).pageNumber =
      get_page (postsQuery store search).length 10 p := fun p => rfl
  refine ⟨rfl, ?_, ?_, ?_⟩
  · intro s hs
    rw [hpn]
    simp only [get_page]
    rw [hs]
  · intro s n hs hn
    have h1 : ¬n < 1 := by
      have := one_le_num_pages (postsQuery store search).length
      omega
    rw [hpn, get_page_parsed _ _ _ _ hs, if_neg h1, if_pos hn]
  · intro p
    rw [hpn]
    cases p with
    | missing => exact ⟨le_refl 1, one_le_num_pages _⟩
    | str s =>
      cases hps : parseInt s with
      | none =>
        have : get_page (postsQuery store search).length 10 (.str s) = 1 := by
          simp only [get_page, hps]
        rw [this]
        exact ⟨le_refl 1, one_le_num_pages _⟩
      | some n =>
        rw [get_page_parsed _ _ _ _ hps]
        by_cases h1 : n < 1
        · rw [if_pos h1]
          exact ⟨one_le_num_pages _, le_refl _⟩
        · by_cases h2 : (num_pages (postsQuery store search).length 10 : Int) < n
          · rw [if_neg h1, if_pos h2]
            exact ⟨one_le_num_pages _, le_refl _⟩
          · rw [if_neg h1, if_neg h2]
            omega

/-- Witness: the page selection on a one-entity store with the parameter
missing, non-numeric, and past the last page. -/
theorem page_param_never_fails_witness :
    (posts_list [wPost] none .missing).pageNumber = 1 ∧
    (posts_list [wPost] none (.str "abc")).pageNumber = 1 ∧
    (posts_list [wPost] none (.str "99")).pageNumber =
      num_pages (postsQuery [wPost] none).length 10 ∧
    1 ≤ (posts_list [wPost] none (.str "0")).pageNumber ∧
    (posts_list [wPost] none (.str "0")).pageNumber ≤
      num_pages (postsQuery [wPost] none).length 10 := by
  have h := page_param_never_fails [wPost] none
  exact ⟨h.1, h.2.1 "abc" (by decide), h.2.2.1 "99" 99 (by decide) (by decide),
    (h.2.2.2 (.str "0")).1, (h.2.2.2 (.str "0")).2⟩

end Blog
